import Mathlib

/-!
Verification development for `export_chatgpt_team.py` (ChatGPT Team chat
exporter).  The Python functions relevant to the claims are shallowly
embedded below: JSON-like values become the inductive `JVal`, Python
dictionaries become association lists, and code that can raise
(`AttributeError` from `.get`/`.values` on a non-dict, `TypeError` from
`str.join` on non-strings or from comparing incomparable sort keys)
returns `Except PyErr`.  JSON numbers are modelled as integers: every
claim about numbers only uses their linear order.
-/

/-- Python exceptions that the embedded code can raise. -/
inductive PyErr : Type where
  | attributeError : PyErr
  | typeError : PyErr
deriving DecidableEq

/-- JSON-like values (the payloads exchanged with the in-page API). -/
inductive JVal : Type where
  | null : JVal
  | bool : Bool → JVal
  | num : Int → JVal
  | str : String → JVal
  | arr : List JVal → JVal
  | obj : List (String × JVal) → JVal

/-- First binding of a key in an object's field list (objects decoded from
JSON have no duplicate keys). -/
def lookupJ (fields : List (String × JVal)) (k : String) : Option JVal :=
  (fields.find? (fun p => p.1 == k)).map (fun p => p.2)

/-- Python `d.get(k)`: `None` when the key is absent. -/
def jget (fields : List (String × JVal)) (k : String) : JVal :=
  (lookupJ fields k).getD JVal.null

/-- Python `d.get(k, default)`: the default only replaces an *absent* key;
a key bound to `None` still yields `None`. -/
def jgetD (fields : List (String × JVal)) (k : String) (d : JVal) : JVal :=
  (lookupJ fields k).getD d

/-- Python truthiness: `None`, `False`, `0`, `""`, `[]` and an empty dict
are falsy. -/
def pyTruthy : JVal → Bool
  | JVal.null => false
  | JVal.bool b => b
  | JVal.num n => n != 0
  | JVal.str s => s != ""
  | JVal.arr l => !l.isEmpty
  | JVal.obj f => !f.isEmpty

/-- JavaScript truthiness: differs from Python on containers — `[]` and
an empty object are truthy in JavaScript. -/
def jsTruthy : JVal → Bool
  | JVal.null => false
  | JVal.bool b => b
  | JVal.num n => n != 0
  | JVal.str s => s != ""
  | JVal.arr _ => true
  | JVal.obj _ => true

/-- Python `a or b` on already-evaluated values. -/
def pyOr (a b : JVal) : JVal :=
  if pyTruthy a then a else b

/-- JavaScript property access `d.k` as it occurs in `LIST_JS`: reading a
property of a non-object yields `undefined` (merged with `null` here);
the loop never dereferences a nullish `data`. -/
def dget (d : JVal) (k : String) : JVal :=
  match d with
  | JVal.obj f => jget f k
  | _ => JVal.null

/-- JavaScript `a ?? b` (nullish coalescing). -/
def jsNullish (a b : JVal) : JVal :=
  match a with
  | JVal.null => b
  | _ => a

/-- Python `str(x)` as used by the f-string building a conversation URL.
Container reprs are not needed by any claim and are abbreviated. -/
def pyStr : JVal → String
  | JVal.null => "None"
  | JVal.bool b => if b then "True" else "False"
  | JVal.num n => toString n
  | JVal.str s => s
  | JVal.arr _ => "[...]"
  | JVal.obj _ => "..."

/-- Characters stripped from both ends by Python `str.strip()` (modelled
with Lean's whitespace predicate). -/
def stripChars (l : List Char) : List Char :=
  ((l.dropWhile Char.isWhitespace).reverse.dropWhile Char.isWhitespace).reverse

/-- Python `s.strip()`. -/
def pyStrip (s : String) : String :=
  String.mk (stripChars s.data)

/-- Join character lists with a separator character. -/
def joinChars (sep : Char) : List (List Char) → List Char
  | [] => []
  | [x] => x
  | x :: y :: xs => x ++ sep :: joinChars sep (y :: xs)

/-! ### `convert_api_conversation` (src lines 174-213) -/

/-- One normalized message `{role, text, html}`.  The API path always sets
`html` to `None`; `role` is whatever value the payload carried. -/
structure Msg where
  role : JVal
  text : String
  html : Option String

/-- The normalizer's result `{id, title, messages}`. -/
structure Conv where
  id : JVal
  title : JVal
  messages : List Msg

/-- The sort key of one mapping node:
`n.get("message", {}).get("create_time") or 0`.
Note the asymmetry with the message loop below: here `message: null` makes
`.get("create_time")` raise `AttributeError` (the `{}` default of
`n.get("message", {})` only covers an *absent* key), while the loop's
`n.get("message") or {}` would have tolerated `null`. -/
def nodeKey (n : JVal) : Except PyErr JVal :=
  match n with
  | JVal.obj nf =>
    match jgetD nf "message" (JVal.obj []) with
    | JVal.obj mf => Except.ok (pyOr (jget mf "create_time") (JVal.num 0))
    | _ => Except.error PyErr.attributeError
  | _ => Except.error PyErr.attributeError

/-- Is a sort key numeric (Python compares `bool` with numbers)? -/
def isNumKey : JVal → Bool
  | JVal.num _ => true
  | JVal.bool _ => true
  | _ => false

/-- Numeric value of a numeric sort key (defaulted; only applied on lists
whose keys all satisfy `isNumKey`). -/
def numKeyD : JVal → Int
  | JVal.num n => n
  | JVal.bool b => if b then 1 else 0
  | _ => 0

/-- Is a sort key a string? -/
def isStrKey : JVal → Bool
  | JVal.str _ => true
  | _ => false

/-- String value of a string sort key (defaulted likewise). -/
def strKeyD : JVal → String
  | JVal.str s => s
  | _ => ""

/-- Comparison used to state sortedness of the output: defined exactly on
the key pairs Python's `<` accepts (number/number and string/string). -/
def keyLeB (a b : JVal) : Bool :=
  if isNumKey a && isNumKey b then decide (numKeyD a ≤ numKeyD b)
  else if isStrKey a && isStrKey b then decide (strKeyD a ≤ strKeyD b)
  else false

/-- `nodes.sort(key=lambda n: (n.get("message", {}).get("create_time") or 0))`.
CPython first computes every key in list order (raising at the first bad
node), then sorts the decorated list with a stable sort; `insertionSort`
is stable, hence extensionally equal to Timsort here.  A comparison
between keys of different comparability classes raises `TypeError`; a
single-element list is never compared.  (Keys that are themselves lists
are modelled as incomparable; Python would compare them elementwise, but
no claim involves list-valued `create_time`.) -/
def sortDecorated (keyed : List (JVal × JVal)) : Except PyErr (List (JVal × JVal)) :=
  if keyed.all (fun p => isNumKey p.1) then
    Except.ok (List.insertionSort (fun a b => numKeyD a.1 ≤ numKeyD b.1) keyed)
  else if keyed.all (fun p => isStrKey p.1) then
    Except.ok (List.insertionSort (fun a b => strKeyD a.1 ≤ strKeyD b.1) keyed)
  else if keyed.length ≤ 1 then
    Except.ok keyed
  else
    Except.error PyErr.typeError

/-- Decorate the node list with its sort keys, in traversal order
(CPython computes every key, in order, before comparing any). -/
def decorate : List JVal → Except PyErr (List (JVal × JVal))
  | [] => Except.ok []
  | n :: rest => do
    let k ← nodeKey n
    let tl ← decorate rest
    Except.ok ((k, n) :: tl)

/-- The sorted node list produced by `nodes.sort(key=...)`. -/
def sortNodes (vals : List JVal) : Except PyErr (List JVal) := do
  let keyed ← decorate vals
  let sorted ← sortDecorated keyed
  Except.ok (sorted.map (fun p => p.2))

/-- The `chunk` list built from a truthy `parts` list: string parts are
kept, and for dict parts with a `"text"` key the bound value is kept
(whatever it is); other parts are skipped. -/
def chunkOf (ps : List JVal) : List JVal :=
  ps.filterMap (fun p =>
    match p with
    | JVal.str _ => some p
    | JVal.obj pf =>
      match lookupJ pf "text" with
      | some v => some v
      | none => none
    | _ => none)

/-- Python `"\n".join(chunk)`: raises `TypeError` unless every element is
a string. -/
def pyJoin (sep : Char) (chunk : List JVal) : Except PyErr String :=
  match chunk.mapM (fun v => match v with | JVal.str s => some s | _ => none) with
  | some ss => Except.ok (String.mk (joinChars sep (ss.map String.data)))
  | none => Except.error PyErr.typeError

/-- Text extraction from a message `content` (src lines 192-207).
`parts = content.get("parts")` runs first, so a `content` that is not a
dict — in particular a bare string — raises `AttributeError` here; the
source's final `elif isinstance(content, str)` branch is therefore
unreachable (when control reaches it, `content` is always a dict), and
is modelled by the `.ok ""` fallthrough. -/
def extractText (content : JVal) : Except PyErr String :=
  match content with
  | JVal.obj cf =>
    match jget cf "parts" with
    | JVal.arr ps =>
      if !ps.isEmpty then
        (pyJoin (Char.ofNat 10) (chunkOf ps)).map pyStrip
      else
        match jget cf "text" with
        | JVal.str s => Except.ok (pyStrip s)
        | _ => Except.ok ""
    | _ =>
      match jget cf "text" with
      | JVal.str s => Except.ok (pyStrip s)
      | _ => Except.ok ""
  | _ => Except.error PyErr.attributeError

/-- The body of the message loop for one node (src lines 188-208). -/
def nodeToMsg (n : JVal) : Except PyErr Msg :=
  match n with
  | JVal.obj nf =>
    match pyOr (jget nf "message") (JVal.obj []) with
    | JVal.obj mf =>
      match pyOr (jget mf "author") (JVal.obj []) with
      | JVal.obj af => do
        let role := pyOr (jget af "role") (JVal.str "assistant")
        let content := pyOr (jget mf "content") (JVal.obj [])
        let text ← extractText content
        Except.ok { role := role, text := text, html := none }
      | _ => Except.error PyErr.attributeError
    | _ => Except.error PyErr.attributeError
  | _ => Except.error PyErr.attributeError

/-- The message loop of `convert_api_conversation`: one message appended
per sorted node, raising at the first bad node. -/
def msgsOf : List JVal → Except PyErr (List Msg)
  | [] => Except.ok []
  | n :: rest => do
    let m ← nodeToMsg n
    let tl ← msgsOf rest
    Except.ok (m :: tl)

/-- `convert_api_conversation` (src lines 174-213). -/
def convert_api_conversation (api_obj : JVal) : Except PyErr Conv :=
  match api_obj with
  | JVal.obj f =>
    let cid := pyOr (jget f "id") (jget f "conversation_id")
    let title := pyOr (pyOr (jget f "title") (jget f "current_node")) (JVal.str "Untitled")
    let mapping := pyOr (jget f "mapping") (JVal.obj [])
    if pyTruthy mapping then
      match mapping with
      | JVal.obj mf => do
        let ns ← sortNodes (mf.map (fun p => p.2))
        let msgs ← msgsOf ns
        Except.ok { id := cid, title := title, messages := msgs }
      | _ => Except.error PyErr.attributeError
    else
      Except.ok { id := cid, title := title, messages := [] }
  | _ => Except.error PyErr.attributeError

/-! ### The listing loop `LIST_JS` (src lines 99-142) and its wrapper -/

/-- One round of the `while (true)` loop in `LIST_JS`.  The per-URL
`fetch` attempts (with their swallowed exceptions) are modelled by an
oracle giving each round's outcome: `none` when no URL variant produced
an `ok` response (`ok` stays false, so the loop breaks), `some d` for the
first variant's decoded JSON body.  The requested offset only affects the
URL, hence only which round the oracle answers; it is elided.  An
exhausted oracle behaves like a failed round. -/
def listLoop (rounds : List (Option JVal)) (acc : List JVal) : List JVal :=
  match rounds with
  | [] => acc
  | r :: rest =>
    match r with
    | none => acc
    | some d =>
      if !jsTruthy d then acc
      else
        match dget d "items" with
        | JVal.arr is =>
          if jsTruthy (dget d "has_more") then listLoop rest (acc ++ is) else acc ++ is
        | _ =>
          match dget d "conversations" with
          | JVal.arr cs =>
            if jsTruthy (dget d "has_more") then listLoop rest (acc ++ cs) else acc ++ cs
          | _ => acc

/-- `list_conversations_via_api` (src lines 160-165): `page.evaluate`
raising is modelled by `none`; `items or []` returns the accumulated
array (an empty array is falsy in Python, so `or []` is the identity on
the result). -/
def list_conversations_via_api (evalResult : Option (List JVal)) : List JVal :=
  match evalResult with
  | none => []
  | some items => if items.isEmpty then [] else items

/-- A primary-shape list page `{items, has_more, limit}`. -/
def mkPage (is : List JVal) (hasMore : Bool) : JVal :=
  JVal.obj [("items", JVal.arr is), ("has_more", JVal.bool hasMore), ("limit", JVal.num 50)]

/-! ### Sidebar link de-duplication (src lines 283-291) -/

/-- A discovered sidebar link. -/
structure Link where
  href : String
  title : String

/-- `href.rsplit("/", 1)[-1]`: the part after the last slash (the whole
string when it has no slash). -/
def lastSegment (s : String) : String :=
  String.mk ((s.data.reverse.takeWhile (fun c => c != Char.ofNat 47)).reverse)

/-- The de-duplication loop, with the `seen_ids` set as a list of keys. -/
def dedupeAux (seen : List String) : List Link → List Link
  | [] => []
  | L :: rest =>
    if lastSegment L.href ∈ seen then dedupeAux seen rest
    else L :: dedupeAux (lastSegment L.href :: seen) rest

/-- The `# de-dup by id` block of `load_all_chats_dom`. -/
def dedupe (links : List Link) : List Link :=
  dedupeAux [] links

/-- What the spec describes: keep each link whose key (trailing URL path
segment) has not occurred before, first occurrence first. -/
def firstOccByKey : List Link → List Link
  | [] => []
  | L :: rest =>
    L :: firstOccByKey (rest.filter (fun M => lastSegment M.href != lastSegment L.href))
termination_by l => l.length
decreasing_by
  simpa using Nat.lt_succ_of_le (List.length_filter_le _ rest)

/-! ### The scroll-and-settle loop (src lines 249-266) -/

def MAX_SCROLL_PASSES : Nat := 80

/-- One run of the sidebar scroll loop, counting completed passes.
`obs p` is the environment on pass `p`: `none` when the scroll
`page.evaluate` raises (the `except` breaks out before the pass
completes), `some t` for the total matched-link count observed after the
pause.  Returns the number of completed passes. -/
def scrollLoop (obs : Nat → Option Nat) : Nat → Nat → Nat → Nat → Nat
  | 0, _, _, p => p
  | fuel + 1, seen, stable, p =>
    match obs p with
    | none => p
    | some total =>
      if total == seen then
        if stable + 1 ≥ 3 then p + 1
        else scrollLoop obs fuel seen (stable + 1) (p + 1)
      else scrollLoop obs fuel total 0 (p + 1)

/-- Number of passes the loop performs against environment `obs`. -/
def numPasses (obs : Nat → Option Nat) : Nat :=
  scrollLoop obs MAX_SCROLL_PASSES 0 0 0

/-! ### `main`'s conversation assembly (src lines 342-431) -/

/-- One record of the export document's `conversations` array. -/
structure ConvRec where
  id : JVal
  title : JVal
  url : String
  messages : List Msg

/-- `f"https://chat.openai.com/c/{cid}"`. -/
def chatUrl (cid : JVal) : String :=
  "https://chat.openai.com/c/" ++ pyStr cid

/-- The API branch of `main` (src lines 377-392).  `fetch cid` is the
value of `fetch_conversation_via_api(page, cid)`; that helper returns
`None` both when the endpoints fail and when `page.evaluate` raises, so a
plain falsy `JVal` covers every failure. -/
def apiPath (fetch : JVal → JVal) : List JVal → Except PyErr (List ConvRec)
  | [] => Except.ok []
  | it :: rest =>
    match it with
    | JVal.obj itf =>
      let cid := pyOr (jget itf "id") (jget itf "conversation_id")
      let title := pyOr (jget itf "title") (JVal.str "Untitled")
      if pyTruthy cid then
        let d := fetch cid
        if pyTruthy d then do
          let conv ← convert_api_conversation d
          let recs ← apiPath fetch rest
          Except.ok ({ id := conv.id, title := conv.title, url := chatUrl cid,
                       messages := conv.messages } :: recs)
        else do
          let recs ← apiPath fetch rest
          Except.ok ({ id := cid, title := title, url := chatUrl cid,
                       messages := [] } :: recs)
      else apiPath fetch rest
    | _ => Except.error PyErr.attributeError

/-- The DOM branch of `main` (src lines 401-427), on the de-duplicated
link list.  Per-link page navigation, title lookup and turn extraction
go through the browser and are abstracted as oracles; the record's `id`
is the trailing segment of the link's URL, exactly as in the source. -/
def domPath (titleOf : Link → String) (turnsOf : Link → List Msg)
    (links : List Link) : List ConvRec :=
  links.map (fun L =>
    { id := JVal.str (lastSegment L.href), url := L.href,
      title := JVal.str (titleOf L), messages := turnsOf L })

/-- The `conversations` array of the final export document: the API path
result, or — when it is empty — the DOM fallback over the de-duplicated
discovered links (src lines 375-429). -/
def exportConversations (fetch : JVal → JVal) (titleOf : Link → String)
    (turnsOf : Link → List Msg) (items : List JVal) (rawLinks : List Link) :
    Except PyErr (List ConvRec) := do
  let api ← apiPath fetch items
  if api.isEmpty then
    Except.ok (domPath titleOf turnsOf (dedupe rawLinks))
  else
    Except.ok api

/-! ## Claims -/

/-- Claim C7 (confirmed): `convert_api_conversation` is deterministic — in
this embedding it is a pure function of its payload alone (no state, no
I/O enters its type), so two applications to the same payload are the
same term. -/
theorem convert_api_conversation_deterministic (p : JVal) :
    convert_api_conversation p = convert_api_conversation p := rfl

/-- Claim C1 (code bug): the normalizer is not total.  Three evaluations,
one per hole: a bare-string `content` raises `AttributeError` at
`content.get("parts")` (before the source's own `isinstance(content, str)`
fallback, which is unreachable); a node with `message: null` raises in the
sort key (`n.get("message", {})` keeps the `null`, then `.get` on it
raises); a dict part whose `"text"` is not a string makes
`"\n".join(chunk)` raise `TypeError`. -/
theorem convert_api_conversation_not_total :
    convert_api_conversation (JVal.obj [("mapping", JVal.obj [("n",
        JVal.obj [("message", JVal.obj [("content", JVal.str "hi")])])])])
      = Except.error PyErr.attributeError ∧
    convert_api_conversation (JVal.obj [("mapping", JVal.obj [("n",
        JVal.obj [("message", JVal.null)])])])
      = Except.error PyErr.attributeError ∧
    convert_api_conversation (JVal.obj [("mapping", JVal.obj [("n",
        JVal.obj [("message", JVal.obj [("content",
          JVal.obj [("parts", JVal.arr [JVal.obj [("text", JVal.num 3)]])])])])])])
      = Except.error PyErr.typeError :=
  ⟨rfl, rfl, rfl⟩

/-- Payload with a single mapping node whose message has the given
content. -/
def oneNodePayload (c : JVal) : JVal :=
  JVal.obj [("mapping", JVal.obj [("n",
    JVal.obj [("message", JVal.obj [("content", c)])])])]

/-- Claim C2 (code bug): of the four stated precedence cases, three hold
— `parts: ["a", {text: "b"}]` yields `"a\nb"`, `{text: " x "}` yields
`"x"` (trimmed), `{}` yields `""` — but a bare-string content `"y"` does
not yield `"y"`: `content.get("parts")` raises `AttributeError` before
the `isinstance(content, str)` branch can run. -/
theorem text_extraction_precedence :
    convert_api_conversation (oneNodePayload (JVal.obj [("parts",
        JVal.arr [JVal.str "a", JVal.obj [("text", JVal.str "b")]])]))
      = Except.ok
          { id := JVal.null, title := JVal.str "Untitled",
            messages := [{ role := JVal.str "assistant", text := "a\nb", html := none }] } ∧
    convert_api_conversation (oneNodePayload (JVal.obj [("text", JVal.str " x ")]))
      = Except.ok
          { id := JVal.null, title := JVal.str "Untitled",
            messages := [{ role := JVal.str "assistant", text := "x", html := none }] } ∧
    convert_api_conversation (oneNodePayload (JVal.obj []))
      = Except.ok
          { id := JVal.null, title := JVal.str "Untitled",
            messages := [{ role := JVal.str "assistant", text := "", html := none }] } ∧
    convert_api_conversation (oneNodePayload (JVal.str "y"))
      = Except.error PyErr.attributeError :=
  ⟨rfl, rfl, rfl, rfl⟩

/-- Claim C6 (confirmed): a payload whose `mapping` field is absent
(`.get` yields `None`), `null`, or the empty dict produces a header-only
record: the conversion succeeds and `messages` is empty. -/
theorem no_mapping_empty_messages (f : List (String × JVal))
    (h : jget f "mapping" = JVal.null ∨ jget f "mapping" = JVal.obj []) :
    convert_api_conversation (JVal.obj f)
      = Except.ok
          { id := pyOr (jget f "id") (jget f "conversation_id"),
            title := pyOr (pyOr (jget f "title") (jget f "current_node")) (JVal.str "Untitled"),
            messages := [] } := by
  rcases h with h | h <;> simp [convert_api_conversation, h, pyOr, pyTruthy]

/-- Witness for C6 at a concrete header payload (its `mapping` key is
absent). -/
theorem no_mapping_empty_messages_witness :
    (jget [("id", JVal.str "c1")] "mapping" = JVal.null ∨
     jget [("id", JVal.str "c1")] "mapping" = JVal.obj []) ∧
    convert_api_conversation (JVal.obj [("id", JVal.str "c1")])
      = Except.ok { id := JVal.str "c1", title := JVal.str "Untitled", messages := [] } :=
  ⟨Or.inl rfl, no_mapping_empty_messages [("id", JVal.str "c1")] (Or.inl rfl)⟩

/-- Claim C10 (confirmed): when `content` carries `parts: []`, the parts
branch is skipped (`isinstance(parts, list) and parts` is false on `[]`)
and extraction falls through: a string `text` field is returned trimmed,
and otherwise the result is the empty string. -/
theorem empty_parts_falls_through (cf : List (String × JVal))
    (hp : jget cf "parts" = JVal.arr []) :
    (∀ s, jget cf "text" = JVal.str s →
        extractText (JVal.obj cf) = Except.ok (pyStrip s)) ∧
    ((∀ s, jget cf "text" ≠ JVal.str s) →
        extractText (JVal.obj cf) = Except.ok "") := by
  constructor
  · intro s hs
    simp [extractText, hp, hs]
  · intro hs
    cases ht : jget cf "text" with
    | str s => exact absurd ht (hs s)
    | null => simp [extractText, hp, ht]
    | bool b => simp [extractText, hp, ht]
    | num n => simp [extractText, hp, ht]
    | arr l => simp [extractText, hp, ht]
    | obj o => simp [extractText, hp, ht]

/-- Witness for C10: `parts: []` beside `text: " hi "` yields the trimmed
text field, not the parts branch. -/
theorem empty_parts_falls_through_witness :
    jget [("parts", JVal.arr []), ("text", JVal.str " hi ")] "parts" = JVal.arr [] ∧
    extractText (JVal.obj [("parts", JVal.arr []), ("text", JVal.str " hi ")])
      = Except.ok "hi" :=
  ⟨rfl,
   (empty_parts_falls_through [("parts", JVal.arr []), ("text", JVal.str " hi ")] rfl).1
     " hi " rfl⟩


/-- The seen-set loop equals the spec's keyed first-occurrence filter,
relative to an arbitrary starting set of already-seen keys. -/
theorem dedupeAux_eq_firstOccByKey (l : List Link) : ∀ seen : List String,
    dedupeAux seen l
      = firstOccByKey (l.filter (fun M => decide (lastSegment M.href ∉ seen))) := by
  induction l with
  | nil => intro seen; simp [dedupeAux, firstOccByKey]
  | cons L rest ih =>
    intro seen
    by_cases h : lastSegment L.href ∈ seen
    · rw [dedupeAux, if_pos h, ih, List.filter_cons, if_neg (by simp [h])]
    · rw [dedupeAux, if_neg h, ih, List.filter_cons, if_pos (by simp [h]),
        firstOccByKey, List.filter_filter]
      congr 1
      congr 1
      apply List.filter_congr
      intro M _
      by_cases h1 : lastSegment M.href = lastSegment L.href
      · simp [h1, h]
      · by_cases h2 : lastSegment M.href ∈ seen <;> simp [h1, h2]

/-- The spec's first-occurrence filter keeps a subsequence of the input
(first occurrences, in order). -/
theorem firstOccByKey_sublist : ∀ l : List Link, List.Sublist (firstOccByKey l) l := by
  intro l
  induction l using firstOccByKey.induct with
  | case1 => simp [firstOccByKey]
  | case2 L rest ih =>
    rw [firstOccByKey]
    exact List.Sublist.cons₂ L (ih.trans (List.filter_sublist rest))

/-- The kept links have pairwise distinct keys. -/
theorem firstOccByKey_keys_nodup :
    ∀ l : List Link, ((firstOccByKey l).map (fun L => lastSegment L.href)).Nodup := by
  intro l
  induction l using firstOccByKey.induct with
  | case1 => simp [firstOccByKey]
  | case2 L rest ih =>
    rw [firstOccByKey]
    simp only [List.map_cons, List.nodup_cons]
    refine ⟨?_, ih⟩
    intro hmem
    rcases List.mem_map.mp hmem with ⟨M, hM, hkey⟩
    have hMf : M ∈ List.filter (fun M => lastSegment M.href != lastSegment L.href) rest :=
      (firstOccByKey_sublist _).subset hM
    have := (List.mem_filter.mp hMf).2
    rw [hkey] at this
    simp at this

/-- Claim C8 (confirmed): the de-duplication step keys each link by the
trailing path segment of its URL and keeps exactly the first occurrence
of each key in first-occurrence order: the loop equals the keyed
first-occurrence filter, keeps a subsequence of the discovered links, and
leaves no two kept links sharing a trailing segment. -/
theorem dedupe_keeps_first_occurrences (links : List Link) :
    dedupe links = firstOccByKey links ∧
    List.Sublist (dedupe links) links ∧
    ((dedupe links).map (fun L => lastSegment L.href)).Nodup := by
  have he : dedupe links = firstOccByKey links := by
    rw [dedupe, dedupeAux_eq_firstOccByKey]
    congr 1
    simp
  exact ⟨he, he ▸ firstOccByKey_sublist links, he ▸ firstOccByKey_keys_nodup links⟩

/-- Claim C5 (confirmed): the listing loop returns the concatenation of
the page item arrays in order.  With pages reporting
`has_more = true, true, false` it yields all three pages' items and
performs no further round (the tail of the round oracle is arbitrary and
unconsumed); a truthy response matching neither the `items` shape nor the
legacy `conversations` shape terminates the listing with the items
accumulated so far; a round on which every URL variant failed (a raised
and swallowed fetch error) likewise terminates with the accumulated
items. -/
theorem listLoop_pages
    (i1 i2 i3 : List JVal) (bad : JVal) (rest1 rest2 rest3 : List (Option JVal))
    (hb : jsTruthy bad = true)
    (hbi : ∀ l, dget bad "items" ≠ JVal.arr l)
    (hbc : ∀ l, dget bad "conversations" ≠ JVal.arr l) :
    listLoop (some (mkPage i1 true) :: some (mkPage i2 true) :: some (mkPage i3 false) :: rest1) []
        = i1 ++ i2 ++ i3 ∧
    listLoop (some (mkPage i1 true) :: some bad :: rest2) [] = i1 ∧
    listLoop (some (mkPage i1 true) :: none :: rest3) [] = i1 := by
  have hpage : ∀ (is : List JVal) (hm : Bool) (acc : List JVal) (t : List (Option JVal)),
      listLoop (some (mkPage is hm) :: t) acc
        = if hm then listLoop t (acc ++ is) else acc ++ is := by
    intro is hm acc t
    cases hm <;> simp [listLoop, mkPage, dget, jget, lookupJ, jsTruthy]
  have hbad : ∀ acc rest, listLoop (some bad :: rest) acc = acc := by
    intro acc rest
    rw [listLoop]
    rw [hb]
    cases hi : dget bad "items" with
    | arr l => exact absurd hi (hbi l)
    | null =>
      cases hc : dget bad "conversations" with
      | arr l => exact absurd hc (hbc l)
      | null => simp
      | bool b => simp
      | num n => simp
      | str s => simp
      | obj o => simp
    | bool b =>
      cases hc : dget bad "conversations" with
      | arr l => exact absurd hc (hbc l)
      | null => simp
      | bool b2 => simp
      | num n => simp
      | str s => simp
      | obj o => simp
    | num n =>
      cases hc : dget bad "conversations" with
      | arr l => exact absurd hc (hbc l)
      | null => simp
      | bool b => simp
      | num n2 => simp
      | str s => simp
      | obj o => simp
    | str s =>
      cases hc : dget bad "conversations" with
      | arr l => exact absurd hc (hbc l)
      | null => simp
      | bool b => simp
      | num n => simp
      | str s2 => simp
      | obj o => simp
    | obj o =>
      cases hc : dget bad "conversations" with
      | arr l => exact absurd hc (hbc l)
      | null => simp
      | bool b => simp
      | num n => simp
      | str s => simp
      | obj o2 => simp
  refine ⟨?_, ?_, ?_⟩
  · rw [hpage, hpage, hpage]
    simp
  · rw [hpage]
    simp [hbad]
  · rw [hpage]
    simp [listLoop]

/-- Witness for C5 at concrete pages and a concrete shapeless response. -/
theorem listLoop_pages_witness :
    listLoop [some (mkPage [JVal.num 1] true), some (mkPage [JVal.num 2] true),
        some (mkPage [JVal.num 3] false)] [] = [JVal.num 1, JVal.num 2, JVal.num 3] ∧
    listLoop [some (mkPage [JVal.num 1] true), some (JVal.num 7)] [] = [JVal.num 1] ∧
    listLoop [some (mkPage [JVal.num 1] true), none] [] = [JVal.num 1] :=
  listLoop_pages [JVal.num 1] [JVal.num 2] [JVal.num 3] (JVal.num 7) [] [] []
    rfl (fun _ h => JVal.noConfusion h) (fun _ h => JVal.noConfusion h)

/-- The scroll loop performs at most `fuel` further passes. -/
theorem scrollLoop_le (obs : Nat → Option Nat) :
    ∀ (fuel seen stable p : Nat), scrollLoop obs fuel seen stable p ≤ p + fuel := by
  intro fuel
  induction fuel with
  | zero => intro seen stable p; rw [scrollLoop]; omega
  | succ n ih =>
    intro seen stable p
    cases ho : obs p with
    | none => simp only [scrollLoop, ho]; omega
    | some t =>
      simp only [scrollLoop, ho]
      by_cases he : (t == seen) = true
      · rw [if_pos he]
        by_cases hs : stable + 1 ≥ 3
        · rw [if_pos hs]; omega
        · rw [if_neg hs]
          have := ih seen (stable + 1) (p + 1)
          omega
      · rw [if_neg he]
        have := ih t 0 (p + 1)
        omega

/-- Settling phase: once the loop is past pass `k` with `seen` equal to
the settled count and enough stability already banked, it exits by pass
`k + 4`. -/
theorem scrollLoop_settle (obs : Nat → Option Nat) (k t : Nat)
    (hobs : ∀ j, j < 4 → obs (k + j) = some t) :
    ∀ (fuel stable p : Nat), k + 1 ≤ p → p ≤ k + 1 + stable → stable ≤ 2 →
      scrollLoop obs fuel t stable p ≤ k + 4 := by
  intro fuel
  induction fuel with
  | zero => intro stable p h1 h2 h3; rw [scrollLoop]; omega
  | succ n ih =>
    intro stable p h1 h2 h3
    have hp : obs p = some t := by
      have hpk : p = k + (p - k) := by omega
      rw [hpk]
      exact hobs (p - k) (by omega)
    simp only [scrollLoop, hp, if_pos (beq_self_eq_true t)]
    by_cases hs : stable + 1 ≥ 3
    · rw [if_pos hs]; omega
    · rw [if_neg hs]
      exact ih (stable + 1) (p + 1) (by omega) (by omega) (by omega)

/-- From any pass index at most `k`, four equal consecutive observations
starting at pass `k` force the loop to finish within `k + 4` passes. -/
theorem scrollLoop_reaches (obs : Nat → Option Nat) (k t : Nat)
    (hobs : ∀ j, j < 4 → obs (k + j) = some t) :
    ∀ (fuel seen stable p : Nat), p ≤ k → scrollLoop obs fuel seen stable p ≤ k + 4 := by
  intro fuel
  induction fuel with
  | zero => intro seen stable p hp; rw [scrollLoop]; omega
  | succ n ih =>
    intro seen stable p hp
    rcases Nat.lt_or_ge p k with hlt | hge
    · cases ho : obs p with
      | none => simp only [scrollLoop, ho]; omega
      | some tot =>
        simp only [scrollLoop, ho]
        by_cases he : (tot == seen) = true
        · rw [if_pos he]
          by_cases hs : stable + 1 ≥ 3
          · rw [if_pos hs]; omega
          · rw [if_neg hs]
            exact ih seen (stable + 1) (p + 1) (by omega)
        · rw [if_neg he]
          exact ih tot 0 (p + 1) (by omega)
    · have hpk : p = k := by omega
      subst hpk
      have hp0 : obs p = some t := by
        have := hobs 0 (by omega)
        simpa using this
      simp only [scrollLoop, hp0]
      by_cases he : (t == seen) = true
      · have hts : t = seen := by simpa using he
        subst hts
        rw [if_pos he]
        by_cases hs : stable + 1 ≥ 3
        · rw [if_pos hs]; omega
        · rw [if_neg hs]
          exact scrollLoop_settle obs p t hobs n (stable + 1) (p + 1)
            (by omega) (by omega) (by omega)
      · rw [if_neg he]
        exact scrollLoop_settle obs p t hobs n 0 (p + 1) (by omega) (by omega) (by omega)

/-- Claim C9 (confirmed): the sidebar scroll-and-settle loop always
terminates — it performs at most `MAX_SCROLL_PASSES` (80) passes, and as
soon as the matched-link count is unchanged across three consecutive
passes (four equal observations from some pass `k` onward, covering any
prior value of `seen`) it has exited by pass `k + 4`. -/
theorem scroll_loop_terminates :
    (∀ obs : Nat → Option Nat, numPasses obs ≤ MAX_SCROLL_PASSES) ∧
    (∀ (obs : Nat → Option Nat) (k t : Nat),
      (∀ j, j < 4 → obs (k + j) = some t) → numPasses obs ≤ k + 4) := by
  constructor
  · intro obs
    have h := scrollLoop_le obs MAX_SCROLL_PASSES 0 0 0
    simpa [numPasses] using h
  · intro obs k t hobs
    exact scrollLoop_reaches obs k t hobs MAX_SCROLL_PASSES 0 0 0 (Nat.zero_le k)

/-- Witness for C9: a constant count of 5 exits after 4 passes at most
(pass one records the count, three stable passes end the loop). -/
theorem scroll_loop_terminates_witness :
    numPasses (fun _ => some 5) ≤ 0 + 4 :=
  scroll_loop_terminates.2 (fun _ => some 5) 0 5 (fun _ _ => rfl)

/-- Decoration keeps the traversal order of the mapping's values and pairs
each node with its computed sort key. -/
theorem decorate_spec : ∀ (vals : List JVal) (keyed : List (JVal × JVal)),
    decorate vals = Except.ok keyed →
    keyed.map (fun p => p.2) = vals ∧ ∀ p ∈ keyed, nodeKey p.2 = Except.ok p.1 := by
  intro vals
  induction vals with
  | nil =>
    intro keyed h
    simp only [decorate] at h
    injection h with h
    subst h
    simp
  | cons n rest ih =>
    intro keyed h
    simp only [decorate] at h
    cases hk : nodeKey n with
    | error e =>
      rw [hk] at h
      exact Except.noConfusion h
    | ok k =>
      rw [hk] at h
      cases hd : decorate rest with
      | error e =>
        rw [hd] at h
        exact Except.noConfusion h
      | ok tl =>
        rw [hd] at h
        replace h : Except.ok ((k, n) :: tl) = Except.ok keyed := h
        injection h with h
        subst h
        rcases ih tl hd with ⟨hmap, hkeys⟩
        constructor
        · simp [hmap]
        · intro p hp
          rcases List.mem_cons.mp hp with hval | hmem
          · subst hval; simpa using hk
          · exact hkeys p hmem

/-- The stable sort of the decorated list: a permutation of the input,
pairwise non-decreasing under the key comparison, and any key-ordered
subsequence of the input (in particular any pair of tied entries) stays a
subsequence of the output — ties keep traversal order. -/
theorem sortDecorated_spec (keyed sorted : List (JVal × JVal))
    (h : sortDecorated keyed = Except.ok sorted) :
    sorted.Perm keyed ∧
    sorted.Pairwise (fun a b => keyLeB a.1 b.1 = true) ∧
    (∀ c, c.Pairwise (fun a b => keyLeB a.1 b.1 = true) →
      List.Sublist c keyed → List.Sublist c sorted) := by
  unfold sortDecorated at h
  by_cases hnum : keyed.all (fun p => isNumKey p.1) = true
  · rw [if_pos hnum] at h
    injection h with h
    subst h
    have hall : ∀ x ∈ keyed, isNumKey x.1 = true := by
      intro x hx
      exact List.all_eq_true.mp hnum x hx
    haveI : IsTotal (JVal × JVal) (fun a b => numKeyD a.1 ≤ numKeyD b.1) :=
      ⟨fun a b => le_total _ _⟩
    haveI : IsTrans (JVal × JVal) (fun a b => numKeyD a.1 ≤ numKeyD b.1) :=
      ⟨fun a b c hab hbc => le_trans hab hbc⟩
    have hperm := List.perm_insertionSort (fun a b => numKeyD a.1 ≤ numKeyD b.1) keyed
    refine ⟨hperm, ?_, ?_⟩
    · have hsorted := List.sorted_insertionSort (fun a b => numKeyD a.1 ≤ numKeyD b.1) keyed
      refine List.Pairwise.imp_of_mem ?_ hsorted
      intro a b ha hb hr
      have ha' : isNumKey a.1 = true := hall a (hperm.subset ha)
      have hb' : isNumKey b.1 = true := hall b (hperm.subset hb)
      simp [keyLeB, ha', hb', hr]
    · intro c hcpw hcsub
      have hcpw' : c.Pairwise (fun a b => numKeyD a.1 ≤ numKeyD b.1) := by
        refine List.Pairwise.imp_of_mem ?_ hcpw
        intro a b ha hb hr
        have ha' : isNumKey a.1 = true := hall a (hcsub.subset ha)
        have hb' : isNumKey b.1 = true := hall b (hcsub.subset hb)
        simpa [keyLeB, ha', hb'] using hr
      exact List.sublist_insertionSort hcpw' hcsub
  · rw [if_neg hnum] at h
    by_cases hstr : keyed.all (fun p => isStrKey p.1) = true
    · rw [if_pos hstr] at h
      injection h with h
      subst h
      have hall : ∀ x ∈ keyed, isStrKey x.1 = true := by
        intro x hx
        exact List.all_eq_true.mp hstr x hx
      haveI : IsTotal (JVal × JVal) (fun a b => strKeyD a.1 ≤ strKeyD b.1) :=
        ⟨fun a b => le_total _ _⟩
      haveI : IsTrans (JVal × JVal) (fun a b => strKeyD a.1 ≤ strKeyD b.1) :=
        ⟨fun a b c hab hbc => le_trans hab hbc⟩
      have hperm := List.perm_insertionSort (fun a b => strKeyD a.1 ≤ strKeyD b.1) keyed
      refine ⟨hperm, ?_, ?_⟩
      · have hsorted := List.sorted_insertionSort (fun a b => strKeyD a.1 ≤ strKeyD b.1) keyed
        refine List.Pairwise.imp_of_mem ?_ hsorted
        intro a b ha hb hr
        have ha' : isStrKey a.1 = true := hall a (hperm.subset ha)
        have hb' : isStrKey b.1 = true := hall b (hperm.subset hb)
        have han : isNumKey a.1 = false := by
          cases ha2 : a.1 <;> simp_all [isStrKey, isNumKey]
        simp [keyLeB, ha', hb', han, hr]
      · intro c hcpw hcsub
        have hcpw' : c.Pairwise (fun a b => strKeyD a.1 ≤ strKeyD b.1) := by
          refine List.Pairwise.imp_of_mem ?_ hcpw
          intro a b ha hb hr
          have ha' : isStrKey a.1 = true := hall a (hcsub.subset ha)
          have hb' : isStrKey b.1 = true := hall b (hcsub.subset hb)
          have han : isNumKey a.1 = false := by
            cases ha2 : a.1 <;> simp_all [isStrKey, isNumKey]
          simpa [keyLeB, ha', hb', han] using hr
        exact List.sublist_insertionSort hcpw' hcsub
    · rw [if_neg hstr] at h
      by_cases hlen : keyed.length ≤ 1
      · rw [if_pos hlen] at h
        injection h with h
        subst h
        refine ⟨List.Perm.refl _, ?_, fun c _ hc => hc⟩
        match keyed, hlen with
        | [], _ => exact List.Pairwise.nil
        | [a], _ => exact List.pairwise_singleton _ a
      · rw [if_neg hlen] at h
        exact absurd h (by simp)

/-- Claim C4 (confirmed): for every detail payload whose node-mapping is
non-empty, when the normalizer returns, its messages arise, in order,
from a permutation of the mapping's values that is pairwise
non-decreasing in the sort key (`create_time or 0` — missing or falsy
timestamps count as 0, the `pyOr` in `nodeKey`), and every key-ordered
pair of the traversal-ordered decoration — in particular every tie —
keeps its traversal order in the sorted sequence (stability). -/
theorem messages_sorted_by_create_time
    (f mf : List (String × JVal)) (r : Conv)
    (hm : jget f "mapping" = JVal.obj mf) (hne : mf ≠ [])
    (h : convert_api_conversation (JVal.obj f) = Except.ok r) :
    ∃ keyed0 sorted : List (JVal × JVal),
      decorate (mf.map (fun p => p.2)) = Except.ok keyed0 ∧
      keyed0.map (fun p => p.2) = mf.map (fun p => p.2) ∧
      (∀ p ∈ keyed0, nodeKey p.2 = Except.ok p.1) ∧
      sorted.Perm keyed0 ∧
      sorted.Pairwise (fun a b => keyLeB a.1 b.1 = true) ∧
      (∀ c, c.Pairwise (fun a b => keyLeB a.1 b.1 = true) →
        List.Sublist c keyed0 → List.Sublist c sorted) ∧
      msgsOf (sorted.map (fun p => p.2)) = Except.ok r.messages := by
  have hT : pyTruthy (JVal.obj mf) = true := by
    cases mf with
    | nil => exact absurd rfl hne
    | cons a tl => rfl
  simp only [convert_api_conversation] at h
  rw [hm] at h
  have hpo : pyOr (JVal.obj mf) (JVal.obj []) = JVal.obj mf := by
    simp [pyOr, hT]
  rw [hpo, hT, if_pos rfl] at h
  replace h :
      (sortNodes (mf.map (fun p => p.2)) >>= fun ns =>
        msgsOf ns >>= fun msgs =>
          Except.ok { id := pyOr (jget f "id") (jget f "conversation_id"),
                      title := pyOr (pyOr (jget f "title") (jget f "current_node"))
                                 (JVal.str "Untitled"),
                      messages := msgs }) = Except.ok r := h
  cases hs : sortNodes (mf.map (fun p => p.2)) with
  | error e =>
    rw [hs] at h
    exact Except.noConfusion h
  | ok ns =>
    rw [hs] at h
    replace h :
        (msgsOf ns >>= fun msgs =>
          Except.ok { id := pyOr (jget f "id") (jget f "conversation_id"),
                      title := pyOr (pyOr (jget f "title") (jget f "current_node"))
                                 (JVal.str "Untitled"),
                      messages := msgs }) = Except.ok r := h
    cases hmsg : msgsOf ns with
    | error e =>
      rw [hmsg] at h
      exact Except.noConfusion h
    | ok msgs =>
      rw [hmsg] at h
      replace h :
          Except.ok (Conv.mk (pyOr (jget f "id") (jget f "conversation_id"))
            (pyOr (pyOr (jget f "title") (jget f "current_node")) (JVal.str "Untitled")) msgs)
            = Except.ok r := h
      injection h with h
      unfold sortNodes at hs
      cases hd : decorate (mf.map (fun p => p.2)) with
      | error e =>
        rw [hd] at hs
        exact Except.noConfusion hs
      | ok keyed0 =>
        rw [hd] at hs
        replace hs :
            (sortDecorated keyed0 >>= fun sorted =>
              Except.ok (sorted.map (fun p => p.2))) = Except.ok ns := hs
        cases hsd : sortDecorated keyed0 with
        | error e =>
          rw [hsd] at hs
          exact Except.noConfusion hs
        | ok sorted =>
          rw [hsd] at hs
          replace hs : Except.ok (sorted.map (fun p => p.2)) = Except.ok ns := hs
          injection hs with hs
          rcases decorate_spec (mf.map (fun p => p.2)) keyed0 hd with ⟨hmap, hkeys⟩
          rcases sortDecorated_spec keyed0 sorted hsd with ⟨hperm, hpw, hstable⟩
          refine ⟨keyed0, sorted, rfl, hmap, hkeys, hperm, hpw, hstable, ?_⟩
          rw [hs, hmsg, ← h]

def c4NodeB : JVal :=
  JVal.obj [("message", JVal.obj [("create_time", JVal.num 5),
    ("content", JVal.obj [("text", JVal.str "later")]),
    ("author", JVal.obj [("role", JVal.str "user")])])]

def c4NodeA : JVal :=
  JVal.obj [("message", JVal.obj [("create_time", JVal.num 2),
    ("content", JVal.obj [("text", JVal.str "earlier")])])]

def c4mf : List (String × JVal) := [("b", c4NodeB), ("a", c4NodeA)]

def c4f : List (String × JVal) := [("mapping", JVal.obj c4mf)]

def c4conv : Conv :=
  { id := JVal.null, title := JVal.str "Untitled",
    messages := [{ role := JVal.str "assistant", text := "earlier", html := none },
                 { role := JVal.str "user", text := "later", html := none }] }

/-- Witness for C4: a two-node mapping listed in reverse chronological
order is returned sorted ascending by `create_time`. -/
theorem messages_sorted_by_create_time_witness :
    convert_api_conversation (JVal.obj c4f) = Except.ok c4conv ∧
    (∃ keyed0 sorted : List (JVal × JVal),
      decorate (c4mf.map (fun p => p.2)) = Except.ok keyed0 ∧
      keyed0.map (fun p => p.2) = c4mf.map (fun p => p.2) ∧
      (∀ p ∈ keyed0, nodeKey p.2 = Except.ok p.1) ∧
      sorted.Perm keyed0 ∧
      sorted.Pairwise (fun a b => keyLeB a.1 b.1 = true) ∧
      (∀ c, c.Pairwise (fun a b => keyLeB a.1 b.1 = true) →
        List.Sublist c keyed0 → List.Sublist c sorted) ∧
      msgsOf (sorted.map (fun p => p.2)) = Except.ok c4conv.messages) :=
  ⟨rfl, messages_sorted_by_create_time c4f c4mf c4conv rfl (by simp [c4mf]) rfl⟩

/-- The de-duplication loop keeps a subsequence of the discovered links. -/
theorem dedupe_sublist (links : List Link) : List.Sublist (dedupe links) links := by
  suffices hgen : ∀ (l : List Link) (seen : List String), List.Sublist (dedupeAux seen l) l by
    exact hgen links []
  intro l
  induction l with
  | nil => intro seen; exact List.Sublist.refl []
  | cons L rest ih =>
    intro seen
    by_cases h : lastSegment L.href ∈ seen
    · rw [dedupeAux, if_pos h]
      exact (ih seen).trans (List.sublist_cons_self L rest)
    · rw [dedupeAux, if_neg h]
      exact List.Sublist.cons₂ L (ih (lastSegment L.href :: seen))

/-- Whenever the normalizer returns, the record's `id` is read from the
*detail payload's* `id`/`conversation_id` fields (not from the listing
item whose id `main` already checked). -/
theorem convert_ok_id (df : List (String × JVal)) (conv : Conv)
    (h : convert_api_conversation (JVal.obj df) = Except.ok conv) :
    conv.id = pyOr (jget df "id") (jget df "conversation_id") := by
  simp only [convert_api_conversation] at h
  by_cases hp : pyTruthy (pyOr (jget df "mapping") (JVal.obj [])) = true
  · rw [if_pos hp] at h
    cases hm : pyOr (jget df "mapping") (JVal.obj []) with
    | obj mfv =>
      rw [hm] at h
      replace h :
          (sortNodes (mfv.map (fun p => p.2)) >>= fun ns =>
            msgsOf ns >>= fun msgs =>
              Except.ok { id := pyOr (jget df "id") (jget df "conversation_id"),
                          title := pyOr (pyOr (jget df "title") (jget df "current_node"))
                                     (JVal.str "Untitled"),
                          messages := msgs }) = Except.ok conv := h
      cases hs : sortNodes (mfv.map (fun p => p.2)) with
      | error e => rw [hs] at h; exact Except.noConfusion h
      | ok ns =>
        rw [hs] at h
        replace h :
            (msgsOf ns >>= fun msgs =>
              Except.ok { id := pyOr (jget df "id") (jget df "conversation_id"),
                          title := pyOr (pyOr (jget df "title") (jget df "current_node"))
                                     (JVal.str "Untitled"),
                          messages := msgs }) = Except.ok conv := h
        cases hmsg : msgsOf ns with
        | error e => rw [hmsg] at h; exact Except.noConfusion h
        | ok msgs =>
          rw [hmsg] at h
          replace h :
              Except.ok (Conv.mk (pyOr (jget df "id") (jget df "conversation_id"))
                (pyOr (pyOr (jget df "title") (jget df "current_node")) (JVal.str "Untitled"))
                msgs) = Except.ok conv := h
          injection h with h
          rw [← h]
    | null => rw [hm] at h; exact Except.noConfusion h
    | bool b => rw [hm] at h; exact Except.noConfusion h
    | num n => rw [hm] at h; exact Except.noConfusion h
    | str s => rw [hm] at h; exact Except.noConfusion h
    | arr a => rw [hm] at h; exact Except.noConfusion h
  · rw [if_neg hp] at h
    injection h with h
    rw [← h]

/-- The API branch of `main` yields only truthy ids, provided every
*truthy* dict-valued fetch result carries a truthy `id` or
`conversation_id` (a falsy fetch result — `None` or the empty dict —
takes the header-only branch instead, which reuses the checked listing
id). -/
theorem apiPath_ids (fetch : JVal → JVal)
    (hfetch : ∀ (cid : JVal) (df : List (String × JVal)), fetch cid = JVal.obj df →
      pyTruthy (JVal.obj df) = true →
      pyTruthy (pyOr (jget df "id") (jget df "conversation_id")) = true) :
    ∀ (items : List JVal) (l : List ConvRec),
      apiPath fetch items = Except.ok l → ∀ r ∈ l, pyTruthy r.id = true := by
  intro items
  induction items with
  | nil =>
    intro l h r hr
    replace h : Except.ok ([] : List ConvRec) = Except.ok l := h
    injection h with h
    subst h
    exact absurd hr (List.not_mem_nil r)
  | cons it rest ih =>
    intro l h r hr
    cases it with
    | obj itf =>
      simp only [apiPath] at h
      by_cases hc : pyTruthy (pyOr (jget itf "id") (jget itf "conversation_id")) = true
      · rw [if_pos hc] at h
        by_cases hd :
            pyTruthy (fetch (pyOr (jget itf "id") (jget itf "conversation_id"))) = true
        · rw [if_pos hd] at h
          cases hcv :
              convert_api_conversation
                (fetch (pyOr (jget itf "id") (jget itf "conversation_id"))) with
          | error e => rw [hcv] at h; exact Except.noConfusion h
          | ok conv =>
            rw [hcv] at h
            replace h :
                (apiPath fetch rest >>= fun recs =>
                  Except.ok (ConvRec.mk conv.id conv.title
                    (chatUrl (pyOr (jget itf "id") (jget itf "conversation_id")))
                    conv.messages :: recs)) = Except.ok l := h
            cases hrest : apiPath fetch rest with
            | error e => rw [hrest] at h; exact Except.noConfusion h
            | ok recs =>
              rw [hrest] at h
              replace h :
                  Except.ok (ConvRec.mk conv.id conv.title
                    (chatUrl (pyOr (jget itf "id") (jget itf "conversation_id")))
                    conv.messages :: recs) = Except.ok l := h
              injection h with h
              subst h
              rcases List.mem_cons.mp hr with hhead | htail
              · subst hhead
                cases hob : fetch (pyOr (jget itf "id") (jget itf "conversation_id")) with
                | obj df =>
                  rw [hob] at hcv
                  have hid := convert_ok_id df conv hcv
                  have := hfetch _ df hob (hob ▸ hd)
                  simpa [hid] using this
                | null => rw [hob] at hcv; exact Except.noConfusion hcv
                | bool b => rw [hob] at hcv; exact Except.noConfusion hcv
                | num n => rw [hob] at hcv; exact Except.noConfusion hcv
                | str s => rw [hob] at hcv; exact Except.noConfusion hcv
                | arr a => rw [hob] at hcv; exact Except.noConfusion hcv
              · exact ih recs hrest r htail
        · rw [if_neg hd] at h
          cases hrest : apiPath fetch rest with
          | error e => rw [hrest] at h; exact Except.noConfusion h
          | ok recs =>
            rw [hrest] at h
            replace h :
                Except.ok (ConvRec.mk (pyOr (jget itf "id") (jget itf "conversation_id"))
                  (pyOr (jget itf "title") (JVal.str "Untitled"))
                  (chatUrl (pyOr (jget itf "id") (jget itf "conversation_id")))
                  [] :: recs) = Except.ok l := h
            injection h with h
            subst h
            rcases List.mem_cons.mp hr with hhead | htail
            · subst hhead
              exact hc
            · exact ih recs hrest r htail
      · rw [if_neg hc] at h
        exact ih l h r hr
    | null => simp only [apiPath] at h; exact Except.noConfusion h
    | bool b => simp only [apiPath] at h; exact Except.noConfusion h
    | num n => simp only [apiPath] at h; exact Except.noConfusion h
    | str s => simp only [apiPath] at h; exact Except.noConfusion h
    | arr a => simp only [apiPath] at h; exact Except.noConfusion h

/-- Claim C3 (refuted as stated): a run whose listing has one item with
id `"c1"` and whose detail fetch returns the truthy payload
`{title: "T"}` — lacking both known id fields — places a record with a
`null` (falsy, hence not a non-empty string) id in the final export:
`main` keeps `convert_api_conversation`'s id, which came from the detail
payload, not the checked listing id. -/
theorem export_id_counterexample :
    exportConversations (fun _ => JVal.obj [("title", JVal.str "T")]) (fun _ => "Untitled")
        (fun _ => []) [JVal.obj [("id", JVal.str "c1")]] []
      = Except.ok [ConvRec.mk JVal.null (JVal.str "T")
          "https://chat.openai.com/c/c1" []] ∧
    pyTruthy JVal.null = false :=
  ⟨rfl, rfl⟩

/-- Claim C3 (amended): every record placed in the final export document
has a truthy (non-empty) id, provided every successfully fetched *truthy*
detail payload that is a dict carries a truthy `id` or `conversation_id`
field, and every discovered DOM link has a non-empty trailing URL path
segment.  Header-only records (detail fetch failed or falsy, including
the empty dict) always use the listing id, which `main` has checked to
be truthy, so they need no proviso. -/
theorem export_ids_truthy
    (fetch : JVal → JVal) (titleOf : Link → String) (turnsOf : Link → List Msg)
    (items : List JVal) (rawLinks : List Link) (l : List ConvRec)
    (hfetch : ∀ (cid : JVal) (df : List (String × JVal)), fetch cid = JVal.obj df →
      pyTruthy (JVal.obj df) = true →
      pyTruthy (pyOr (jget df "id") (jget df "conversation_id")) = true)
    (hlinks : ∀ L ∈ rawLinks, lastSegment L.href ≠ "")
    (h : exportConversations fetch titleOf turnsOf items rawLinks = Except.ok l) :
    ∀ r ∈ l, pyTruthy r.id = true := by
  unfold exportConversations at h
  cases ha : apiPath fetch items with
  | error e => rw [ha] at h; exact fun r hr => Except.noConfusion h
  | ok api =>
    rw [ha] at h
    replace h :
        (if api.isEmpty then Except.ok (domPath titleOf turnsOf (dedupe rawLinks))
         else Except.ok api) = Except.ok l := h
    by_cases he : api.isEmpty = true
    · rw [if_pos he] at h
      injection h with h
      subst h
      intro r hr
      rcases List.mem_map.mp hr with ⟨L, hL, hrec⟩
      have hmem : L ∈ rawLinks := (dedupe_sublist rawLinks).subset hL
      have hne := hlinks L hmem
      rw [← hrec]
      simpa [pyTruthy] using hne
    · rw [if_neg he] at h
      injection h with h
      subst h
      exact apiPath_ids fetch hfetch items _ ha

/-- Witness for the amended C3 on a one-item API run whose detail payload
repeats its id. -/
theorem export_ids_truthy_witness :
    exportConversations (fun _ => JVal.obj [("id", JVal.str "c1")]) (fun _ => "t")
        (fun _ => []) [JVal.obj [("id", JVal.str "c1")]] []
      = Except.ok [ConvRec.mk (JVal.str "c1") (JVal.str "Untitled")
          "https://chat.openai.com/c/c1" []] ∧
    (∀ r ∈ [ConvRec.mk (JVal.str "c1") (JVal.str "Untitled")
        "https://chat.openai.com/c/c1" ([] : List Msg)],
      pyTruthy r.id = true) :=
  ⟨rfl,
   export_ids_truthy (fun _ => JVal.obj [("id", JVal.str "c1")]) (fun _ => "t")
     (fun _ => []) [JVal.obj [("id", JVal.str "c1")]] [] _
     (fun cid df hdf _ => by cases hdf; rfl)
     (fun L hL => absurd hL (List.not_mem_nil L))
     rfl⟩
